import Mathlib

/-
  Verification of the min-timespan-delivery tabu-search core.

  Shallow embedding of the solver's data model and operations:
  * f64 values are modelled by rationals (ℚ); all arithmetic on them is exact.
  * Rc-shared immutable routes are modelled by plain values; the process-wide
    route caches (thread-local HashMaps keyed by the customer sequence) are
    modelled by explicit association lists threaded through the constructors.
  * The frozen global CONFIG is modelled by an explicit Config record passed to
    every operation that reads it.
  * Rust panics (assert! / index-out-of-bounds / explicit panic!) are modelled
    by Option results or by Bool-valued "no panic" predicates.
-/

namespace MTDV

/-- Drone energy-model interface (config.rs, impl DroneConfig): the methods the
routing core consumes.  The Linear / NonLinear / Endurance arms of the Rust
enum are particular instantiations of this record. -/
structure DroneConfig where
  capacity : ℚ
  battery : ℚ
  fixed_time : ℚ
  takeoff_time : ℚ
  landing_time : ℚ
  takeoff_power : ℚ → ℚ
  landing_power : ℚ → ℚ
  cruise_power : ℚ → ℚ
  cruise_time : ℚ → ℚ

/-- The frozen configuration record (config.rs, struct Config), restricted to
the fields the routing core reads.  TruckConfig is flattened into
truck_speed / truck_capacity. -/
structure Config where
  customers_count : ℕ
  demands : ℕ → ℚ
  dronable : ℕ → Bool
  distances : ℕ → ℕ → ℚ
  truck_speed : ℚ
  truck_capacity : ℚ
  drone : DroneConfig
  waiting_time_limit : ℚ
  single_truck_route : Bool
  single_drone_route : Bool

/-- Route payload (routes.rs, struct _RouteData, with _RouteDataValues
flattened): the customer sequence plus the derived total distance and
weight. -/
structure RouteData where
  customers : List ℕ
  distance : ℚ
  weight : ℚ
deriving DecidableEq

/-- Embeds _RouteData::_construct (routes.rs lines 26-42).  The three assert!
panics are modelled by returning none.  distance sums the distances of the
consecutive pairs, weight sums the demands of every element but the last,
exactly as the source loop over i in 0..len-1 does. -/
def RouteData.construct (cfg : Config) (customers : List ℕ) : Option RouteData :=
  if customers.head? = some 0 ∧ customers.getLast? = some 0 ∧ 3 ≤ customers.length then
    some { customers := customers
           distance := ((customers.zip customers.tail).map fun p => cfg.distances p.1 p.2).sum
           weight := (customers.dropLast.map cfg.demands).sum }
  else
    none

/-- Truck route with its memoized metrics (routes.rs, struct TruckRoute). -/
structure TruckRoute where
  data : RouteData
  working_time : ℚ
  capacity_violation : ℚ
  waiting_time_violation : ℚ
deriving DecidableEq

/-- Embeds TruckRoute::_calculate_waiting_time_violation (routes.rs lines
591-602).  The source's for loop over i in 1..len-1 carrying the mutable
accumulate_time and waiting_time_violation is rendered as a fold over the
same index range carrying the same pair. -/
def TruckRoute.calculateWaitingTimeViolation (cfg : Config) (customers : List ℕ)
    (working_time : ℚ) : ℚ :=
  let speed := cfg.truck_speed
  ((List.range' 1 (customers.length - 1 - 1)).foldl
    (fun (st : ℚ × ℚ) i =>
      let accumulate_time := st.1 +
        cfg.distances (customers.getD (i - 1) 0) (customers.getD i 0) / speed
      (accumulate_time,
       st.2 + max (working_time - accumulate_time - cfg.waiting_time_limit) 0))
    (0, 0)).2

/-- Embeds TruckRoute::_construct (routes.rs lines 604-618). -/
def TruckRoute.construct (cfg : Config) (data : RouteData) : TruckRoute :=
  let working_time := data.distance / cfg.truck_speed
  { data := data
    working_time := working_time
    capacity_violation := max (data.weight - cfg.truck_capacity) 0
    waiting_time_violation :=
      TruckRoute.calculateWaitingTimeViolation cfg data.customers working_time }

/-- Drone route with its memoized metrics (routes.rs, struct DroneRoute). -/
structure DroneRoute where
  data : RouteData
  working_time : ℚ
  capacity_violation : ℚ
  waiting_time_violation : ℚ
  energy_violation : ℚ
  fixed_time_violation : ℚ
deriving DecidableEq

/-- Embeds DroneRoute::_construct (routes.rs lines 687-726).  The loop carries
time, energy, weight and the waiting-time violation exactly as the source: the
energy of hop i is computed from the current weight, and only afterwards is
the demand of the hop's departure node customers[i] added to weight. -/
def DroneRoute.construct (cfg : Config) (data : RouteData) : DroneRoute :=
  let customers := data.customers
  let drone := cfg.drone
  let working_time := drone.cruise_time data.distance +
    (drone.takeoff_time + drone.landing_time) * ((customers.length : ℚ) - 1)
  let capacity_violation := max (data.weight - drone.capacity) 0
  let st := (List.range (customers.length - 1)).foldl
    (fun (st : ℚ × ℚ × ℚ × ℚ) i =>
      let (time, energy, weight, waiting_time_violation) := st
      let takeoff := drone.takeoff_time
      let cruise := drone.cruise_time (cfg.distances (customers.getD i 0) (customers.getD (i + 1) 0))
      let landing := drone.landing_time
      let time := time + takeoff + cruise + landing
      (time,
       energy + drone.takeoff_power weight * takeoff +
         drone.cruise_power weight * cruise + drone.landing_power weight * landing,
       weight + cfg.demands (customers.getD i 0),
       waiting_time_violation + max (working_time - time - cfg.waiting_time_limit) 0))
    (0, 0, 0, 0)
  { data := data
    working_time := working_time
    capacity_violation := capacity_violation
    waiting_time_violation := st.2.2.2
    energy_violation := max (st.2.1 - drone.battery) 0
    fixed_time_violation := max (working_time - drone.fixed_time) 0 }

/-- Route cache, modelling the thread-local content-addressed HashMap keyed by
the customer sequence (routes.rs, TruckRoute::new / DroneRoute::new). -/
abbrev RouteCache (R : Type) := List (List ℕ × R)

/-- Embeds TruckRoute::new (routes.rs lines 543-563): look the sequence up in
the cache; on a hit return the cached route and leave the cache unchanged; on
a miss construct the route (none models the assert! panic) and insert it. -/
def TruckRoute.new (cfg : Config) (cache : RouteCache TruckRoute) (customers : List ℕ) :
    Option (TruckRoute × RouteCache TruckRoute) :=
  match cache.lookup customers with
  | some value => some (value, cache)
  | none =>
    match RouteData.construct cfg customers with
    | some data =>
      let route := TruckRoute.construct cfg data
      some (route, (customers, route) :: cache)
    | none => none

/-- Embeds DroneRoute::new (routes.rs lines 640-659), same caching discipline
as TruckRoute::new. -/
def DroneRoute.new (cfg : Config) (cache : RouteCache DroneRoute) (customers : List ℕ) :
    Option (DroneRoute × RouteCache DroneRoute) :=
  match cache.lookup customers with
  | some value => some (value, cache)
  | none =>
    match RouteData.construct cfg customers with
    | some data =>
      let route := DroneRoute.construct cfg data
      some (route, (customers, route) :: cache)
    | none => none

/-- Solution record (solutions.rs, struct Solution). -/
structure Solution where
  truck_routes : List (List TruckRoute)
  drone_routes : List (List DroneRoute)
  truck_working_time : List ℚ
  drone_working_time : List ℚ
  working_time : ℚ
  energy_violation : ℚ
  capacity_violation : ℚ
  waiting_time_violation : ℚ
  fixed_time_violation : ℚ
  feasible : Bool
deriving DecidableEq

/-- Embeds Solution::new (solutions.rs lines 126-185): per-vehicle working
times, the running max starting from 0, the per-vehicle capacity
normalization inside the loops, and the final normalization of the energy,
waiting-time and fixed-time totals.  feasible is set exactly when all four
normalized totals equal zero. -/
def Solution.new (cfg : Config) (truck_routes : List (List TruckRoute))
    (drone_routes : List (List DroneRoute)) : Solution :=
  let working_time :=
    ((truck_routes.map fun routes => (routes.map (·.working_time)).sum) ++
      (drone_routes.map fun routes => (routes.map (·.working_time)).sum)).foldl max 0
  let energy_violation :=
    ((drone_routes.map fun routes => (routes.map (·.energy_violation)).sum).sum) /
      cfg.drone.battery
  let capacity_violation :=
    (truck_routes.map fun routes =>
      (routes.map (·.capacity_violation)).sum / cfg.truck_capacity).sum +
    (drone_routes.map fun routes =>
      (routes.map (·.capacity_violation)).sum / cfg.drone.capacity).sum
  let waiting_time_violation :=
    ((truck_routes.map fun routes => (routes.map (·.waiting_time_violation)).sum).sum +
      (drone_routes.map fun routes => (routes.map (·.waiting_time_violation)).sum).sum) /
      cfg.waiting_time_limit
  let fixed_time_violation :=
    ((drone_routes.map fun routes => (routes.map (·.fixed_time_violation)).sum).sum) /
      cfg.drone.fixed_time
  { truck_routes := truck_routes
    drone_routes := drone_routes
    truck_working_time := truck_routes.map fun routes => (routes.map (·.working_time)).sum
    drone_working_time := drone_routes.map fun routes => (routes.map (·.working_time)).sum
    working_time := working_time
    energy_violation := energy_violation
    capacity_violation := capacity_violation
    waiting_time_violation := waiting_time_violation
    fixed_time_violation := fixed_time_violation
    feasible := decide (energy_violation = 0 ∧ capacity_violation = 0 ∧
      waiting_time_violation = 0 ∧ fixed_time_violation = 0) }

/-- Embeds Solution::cost (solutions.rs lines 225-233).  The four global
penalty coefficients are passed as the tuple pc, and f64::powf is passed as
an explicit function powf (the IEEE pow, of which the proofs only ever use
the identity powf 1 e = 1). -/
def Solution.cost (powf : ℚ → ℚ → ℚ) (pc : ℚ × ℚ × ℚ × ℚ) (penalty_exponent : ℚ)
    (s : Solution) : ℚ :=
  s.working_time *
    powf (1 + pc.1 * s.energy_violation + pc.2.1 * s.capacity_violation +
      pc.2.2.1 * s.waiting_time_violation + pc.2.2.2 * s.fixed_time_violation)
      penalty_exponent

/-- Embeds Solution::verify (solutions.rs lines 187-223) as a Bool that is
true exactly when verify returns without panicking.  The panics are: a truck
with more than one route under single_truck_route; a drone route whose length
is not 3 under single_drone_route; a non-dronable customer on a drone route;
an index out of bounds of the marking vector (a customer index above
customers_count); and a customer of [0, customers_count] left unmarked.
The marking vector only records presence, so the check fails on a customer
that appears zero times but accepts duplicated customers. -/
def Solution.verifyOk (cfg : Config) (s : Solution) : Bool :=
  (s.truck_routes.all fun routes =>
    (!cfg.single_truck_route || decide (routes.length ≤ 1)) &&
    routes.all fun route => route.data.customers.all fun c =>
      decide (c ≤ cfg.customers_count)) &&
  (s.drone_routes.all fun routes => routes.all fun route =>
    (!cfg.single_drone_route || decide (route.data.customers.length = 3)) &&
    route.data.customers.all fun c =>
      decide (c ≤ cfg.customers_count) && cfg.dronable c) &&
  ((List.range (cfg.customers_count + 1)).all fun c =>
    decide (c = 0) ||
    (s.truck_routes.any fun routes => routes.any fun route =>
      decide (c ∈ route.data.customers)) ||
    (s.drone_routes.any fun routes => routes.any fun route =>
      decide (c ∈ route.data.customers)))

/-- Embeds _update_violation (solutions.rs lines 115-124): multiply the
coefficient by 1.5 when the violation is strictly positive, otherwise divide
by 1.5, then clamp to the interval from 1 to 1000. -/
def updateViolation (coeff violation : ℚ) : ℚ :=
  let value := if 0 < violation then coeff * (3 / 2) else coeff / (3 / 2)
  min (max value 1) 1000

/-- Embeds _update_violation_solution (solutions.rs lines 752-757): update the
four penalty channels from the current solution's violations. -/
def updateViolationSolution (pc : ℚ × ℚ × ℚ × ℚ) (s : Solution) : ℚ × ℚ × ℚ × ℚ :=
  (updateViolation pc.1 s.energy_violation,
   updateViolation pc.2.1 s.capacity_violation,
   updateViolation pc.2.2.1 s.waiting_time_violation,
   updateViolation pc.2.2.2 s.fixed_time_violation)

/-- Mutable selection state of one neighborhood enumeration
(neighborhoods.rs, struct _IterationState).  The immutable tabu list is
passed separately to the update function. -/
structure IterationState where
  aspiration_cost : ℚ
  min_cost : ℚ
  require_feasible : Bool
  result : Solution × List ℕ

/-- Embeds Neighborhood::_internal_update (neighborhoods.rs lines 79-95).
costF models solution.cost(), which reads the global penalty coefficients.
The candidate's tabu attribute is looked up in the tabu list exactly as
given, without sorting. -/
def internalUpdate (tabu_list : List (List ℕ)) (costF : Solution → ℚ)
    (state : IterationState) (solution : Solution) (tabu : List ℕ) : IterationState :=
  if state.require_feasible && !solution.feasible then
    state
  else
    let cost := costF solution
    let new_best_global_solution := decide (cost < state.aspiration_cost) && solution.feasible
    if new_best_global_solution ||
        (!(tabu_list.contains tabu) && decide (cost < state.min_cost)) then
      { aspiration_cost := if new_best_global_solution then cost else state.aspiration_cost
        min_cost := cost
        require_feasible := state.require_feasible || new_best_global_solution
        result := (solution, tabu) }
    else
      state

/-- Tabu-list maintenance of Neighborhood::search (neighborhoods.rs lines
771-781): if the (already sorted) attribute is present, rotate the suffix
starting at it left by one, moving it to the tail; otherwise push it and, when
the list now exceeds the capacity, evict the head. -/
def tabuInsert (tabu_list : List (List ℕ)) (tabu_size : ℕ) (tabu : List ℕ) :
    List (List ℕ) :=
  match tabu_list.findIdx? (· == tabu) with
  | some index => tabu_list.take index ++ (tabu_list.drop index).rotate 1
  | none =>
    let pushed := tabu_list ++ [tabu]
    if tabu_size < pushed.length then pushed.tail else pushed

/-- Embeds the selection block of Neighborhood::search (neighborhoods.rs
lines 754-763): intra and inter are the (best candidate, tabu attribute)
pairs returned by intra_route and inter_route, which read the tabu list but
never mutate it; S abstracts Solution and cost models the cost method.  An
empty intra attribute falls through to inter and vice versa; otherwise the
pair of smaller cost wins. -/
def searchChoose {S : Type} (cost : S → ℚ) (intra inter : S × List ℕ) : S × List ℕ :=
  if intra.2.isEmpty then inter
  else if inter.2.isEmpty then intra
  else if cost intra.1 < cost inter.1 then intra
  else inter

/-- Embeds the rest of Neighborhood::search (neighborhoods.rs lines 765-783):
if the selected pair carries an empty attribute, both neighborhoods were
empty and None is returned with the tabu list untouched; otherwise the
attribute is sorted, the maintenance step runs, and the winner is returned. -/
def searchModel {S : Type} (cost : S → ℚ) (intra inter : S × List ℕ)
    (tabu_list : List (List ℕ)) (tabu_size : ℕ) : Option S × List (List ℕ) :=
  let chosen := searchChoose cost intra inter
  if chosen.2.isEmpty then
    (none, tabu_list)
  else
    let tabu := chosen.2.insertionSort (· ≤ ·)
    (some chosen.1, tabuInsert tabu_list tabu_size tabu)

/-- Models Vec::swap for in-range indices (out-of-range indices are never used
by the callers below). -/
def listSwap (l : List ℕ) (i j : ℕ) : List ℕ :=
  (l.set i (l.getD j 0)).set j (l.getD i 0)

/-- Models the in-place rotate_right(k) of the slice [lo, hi) of a vector. -/
def sliceRotateRight (l : List ℕ) (lo hi k : ℕ) : List ℕ :=
  let seg := (l.drop lo).take (hi - lo)
  l.take lo ++ seg.rotate (seg.length - k) ++ l.drop hi

/-- Models the in-place rotate_left(k) of the slice [lo, hi) of a vector. -/
def sliceRotateLeft (l : List ℕ) (lo hi k : ℕ) : List ℕ :=
  let seg := (l.drop lo).take (hi - lo)
  l.take lo ++ seg.rotate k ++ l.drop hi

/-- Embeds the Move10 arm of _intra_route_impl (routes.rs lines 336-361)
together with the final sorting of every tabu attribute (routes.rs lines
508-510).  Routes are represented by their customer sequences.  The Rust
iterator (2..i+1).rev() is rendered by iterating an offset and taking
j = i - offset. -/
def intraRouteMove10 (customers : List ℕ) : List (List ℕ × List ℕ) :=
  let length := customers.length
  let first :=
    (List.range' 1 (length - 2 - 1)).foldl
      (fun (st : List ℕ × List (List ℕ × List ℕ)) i =>
        let inner := (List.range' i (length - 2 - i)).foldl
          (fun (st : List ℕ × List (List ℕ × List ℕ)) j =>
            let buffer := listSwap st.1 j (j + 1)
            (buffer, st.2 ++ [(buffer, [customers.getD i 0])])) st
        (sliceRotateRight inner.1 i (length - 1) 1, inner.2))
      (customers, [])
  let second :=
    (List.range' 2 (length - 1 - 2)).foldl
      (fun (st : List ℕ × List (List ℕ × List ℕ)) i =>
        let inner := ((List.range' 2 (i - 1)).reverse).foldl
          (fun (st : List ℕ × List (List ℕ × List ℕ)) j =>
            let buffer := listSwap st.1 (j - 1) j
            (buffer, st.2 ++ [(buffer, [customers.getD i 0])])) st
        (sliceRotateLeft inner.1 1 (i + 1) 1, inner.2))
      first
  second.2.map fun p => (p.1, p.2.insertionSort (· ≤ ·))

/-- Embeds the Move11 arm of Route::inter_route (routes.rs lines 180-200).
servable_other and servable_self model T::_servable and Self::_servable; the
two routes are represented by their customer sequences.  The source swaps the
two buffer entries, emits the candidate, then swaps them back, so every
candidate is the pair of original sequences with positions idx_i and idx_j
exchanged, which is the form used here.  The tabu attribute is emitted in
generator order, not sorted. -/
def interRouteMove11 (servable_self servable_other : ℕ → Bool)
    (customers_i customers_j : List ℕ) : List (List ℕ × List ℕ × List ℕ) :=
  let length_i := customers_i.length
  let length_j := customers_j.length
  ((List.range' 1 (length_i - 1 - 1)).foldl
    (fun (results : List (List ℕ × List ℕ × List ℕ)) idx_i =>
      if servable_other (customers_i.getD idx_i 0) then
        (List.range' 1 (length_j - 1 - 1)).foldl
          (fun results idx_j =>
            if servable_self (customers_j.getD idx_j 0) then
              let buffer_i := customers_i.set idx_i (customers_j.getD idx_j 0)
              let buffer_j := customers_j.set idx_j (customers_i.getD idx_i 0)
              let tabu := [customers_i.getD idx_i 0, customers_j.getD idx_j 0]
              results ++ [(buffer_i, buffer_j, tabu)]
            else results)
          results
      else results)
    [])

/-- Spec-side drone energy, written from the specification's words for
comparison with DroneRoute.construct: the load of each hop is the demand
still on board, the route's total weight minus the demands already dropped in
sequence order, so the first hop departs with the full weight and the final
hop back to the depot carries zero. -/
def specDroneEnergy (cfg : Config) (customers : List ℕ) : ℚ :=
  let drone := cfg.drone
  let total := (customers.dropLast.map cfg.demands).sum
  ((List.range (customers.length - 1)).map fun i =>
    let load := total - ((customers.take (i + 1)).map cfg.demands).sum
    drone.takeoff_power load * drone.takeoff_time +
      drone.cruise_power load *
        drone.cruise_time (cfg.distances (customers.getD i 0) (customers.getD (i + 1) 0)) +
      drone.landing_power load * drone.landing_time).sum

/-- Benign test drone model: a Linear energy model instance (config.rs lines
313-366) with beta = 1 and gamma = 0, so every power function is fun w => w;
takeoff and landing times are 1 and cruise_time is the identity on distance.
fixed_time, which is infinite for linear models, is modelled by a bound large
enough never to bind on the test instances. -/
def testDrone : DroneConfig :=
  { capacity := 10
    battery := 1
    fixed_time := 1000000
    takeoff_time := 1
    landing_time := 1
    takeoff_power := fun w => 1 * w + 0
    landing_power := fun w => 1 * w + 0
    cruise_power := fun w => 1 * w + 0
    cruise_time := fun d => d }

/-- Test instance with two customers, unit demands, unit distances between
distinct points, and limits loose enough that everything is feasible. -/
def cfgA : Config :=
  { customers_count := 2
    demands := fun c => if c = 0 then 0 else 1
    dronable := fun _ => true
    distances := fun i j => if i = j then 0 else 1
    truck_speed := 1
    truck_capacity := 10
    drone := { testDrone with battery := 1000 }
    waiting_time_limit := 1000
    single_truck_route := false
    single_drone_route := false }

/-- Test instance with a single customer of demand 2 and a drone battery of 1:
the spec-side energy of the route [0, 1, 0] is 6 while the code-side energy
is 0. -/
def cfgB : Config :=
  { customers_count := 1
    demands := fun c => if c = 0 then 0 else 2
    dronable := fun _ => true
    distances := fun i j => if i = j then 0 else 1
    truck_speed := 1
    truck_capacity := 10
    drone := testDrone
    waiting_time_limit := 1000
    single_truck_route := false
    single_drone_route := false }

/-- Test instance with a single customer whose demand 5 exceeds the truck
capacity 1, giving an infeasible solution with a positive capacity
violation. -/
def cfgW : Config :=
  { customers_count := 1
    demands := fun c => if c = 0 then 0 else 5
    dronable := fun _ => true
    distances := fun i j => if i = j then 0 else 1
    truck_speed := 1
    truck_capacity := 1
    drone := { testDrone with battery := 1000 }
    waiting_time_limit := 1000
    single_truck_route := false
    single_drone_route := false }

/-- Fallback truck route for total extraction from the Option-valued
constructor; never actually reached on the test instances. -/
def defaultTruckRoute : TruckRoute :=
  { data := { customers := [], distance := 0, weight := 0 }
    working_time := 0
    capacity_violation := 0
    waiting_time_violation := 0 }

/-- Fallback drone route, as defaultTruckRoute. -/
def defaultDroneRoute : DroneRoute :=
  { data := { customers := [], distance := 0, weight := 0 }
    working_time := 0
    capacity_violation := 0
    waiting_time_violation := 0
    energy_violation := 0
    fixed_time_violation := 0 }

/-- Convenience constructor for concrete truck routes in test instances. -/
def mkTruckRoute (cfg : Config) (customers : List ℕ) : TruckRoute :=
  ((RouteData.construct cfg customers).map (TruckRoute.construct cfg)).getD defaultTruckRoute

/-- Convenience constructor for concrete drone routes in test instances. -/
def mkDroneRoute (cfg : Config) (customers : List ℕ) : DroneRoute :=
  ((RouteData.construct cfg customers).map (DroneRoute.construct cfg)).getD defaultDroneRoute

/-- Selection state used by the aspiration witness: aspiration cost 1, large
min_cost, require_feasible unset, initial result the infeasible cfgW
solution. -/
def exState : IterationState :=
  { aspiration_cost := 1
    min_cost := 1000
    require_feasible := false
    result := (Solution.new cfgW [[mkTruckRoute cfgW [0, 1, 0]]] [], []) }

/-- Selection state used by the tabu-lookup counterexample: aspiration cost 0
so no candidate can aspire, large min_cost, require_feasible unset. -/
def exStateLow : IterationState :=
  { aspiration_cost := 0
    min_cost := 1000
    require_feasible := false
    result := (Solution.new cfgW [[mkTruckRoute cfgW [0, 1, 0]]] [], []) }

/-- The cost function at penalty_exponent 0: f64 powf(x, 0) is 1, so cost()
collapses to working_time; used to drive the selection counterexample with
concrete numbers. -/
def exCost : Solution → ℚ :=
  Solution.cost (fun _ _ => 1) (1, 1, 1, 1) 0

/-- Infeasible solution on cfgW (capacity violation 4) with working time 2. -/
def exInfeasible : Solution :=
  Solution.new cfgW [[mkTruckRoute cfgW [0, 1, 0]]] []

/-- Feasible solution on cfgA with working time 4 (one truck, two routes). -/
def exFeasible : Solution :=
  Solution.new cfgA [[mkTruckRoute cfgA [0, 1, 0], mkTruckRoute cfgA [0, 2, 0]]] []

/-- Initial selection state with aspiration cost 10, mirroring the state both
enumerations of one search call start from. -/
def exAspState : IterationState :=
  { aspiration_cost := 10
    min_cost := 100000
    require_feasible := false
    result := (exInfeasible, []) }

/-- Claim C8: for the route [0, 1, 2, 3, 4, 0] the intra-route Move10
generator produces [0, 2, 1, 3, 4, 0] with tabu attribute [1] as its first
candidate, and 12 candidates in total. -/
theorem move10_intra_first_candidate_and_count :
    (intraRouteMove10 [0, 1, 2, 3, 4, 0]).head? = some ([0, 2, 1, 3, 4, 0], [1]) ∧
    (intraRouteMove10 [0, 1, 2, 3, 4, 0]).length = 12 :=
  ⟨by with_unfolding_all rfl, by with_unfolding_all rfl⟩

/-- Claim C2: on the failing input cfgB with route [0, 1, 0] (customer demand
2, every power function fun w => w, takeoff, cruise and landing times all 1,
battery 1), DroneRoute.construct computes the hop loads from the demands of
the nodes already departed, so both hops fly with load 0 and the stored
energy_violation is 0; under the claimed decreasing-load model the route
consumes energy 6 and would have energy_violation 5. -/
theorem drone_energy_uses_departed_demands :
    (mkDroneRoute cfgB [0, 1, 0]).energy_violation = 0 ∧
    specDroneEnergy cfgB [0, 1, 0] = 6 ∧
    max (specDroneEnergy cfgB [0, 1, 0] - cfgB.drone.battery) 0 = 5 :=
  ⟨by with_unfolding_all rfl, by with_unfolding_all rfl, by with_unfolding_all rfl⟩

/-- Claim C5: a solution built by Solution.new is flagged feasible exactly
when its four normalized violation totals are zero, and on a feasible
solution cost() collapses to working_time for every choice of penalty
coefficients and penalty exponent, because the IEEE power function satisfies
powf 1 e = 1. -/
theorem feasible_iff_zero_violations_and_cost (cfg : Config)
    (truck_routes : List (List TruckRoute)) (drone_routes : List (List DroneRoute))
    (powf : ℚ → ℚ → ℚ) (pc : ℚ × ℚ × ℚ × ℚ) (penalty_exponent : ℚ)
    (hpowf : ∀ e : ℚ, powf 1 e = 1) :
    ((Solution.new cfg truck_routes drone_routes).feasible = true ↔
      ((Solution.new cfg truck_routes drone_routes).energy_violation = 0 ∧
       (Solution.new cfg truck_routes drone_routes).capacity_violation = 0 ∧
       (Solution.new cfg truck_routes drone_routes).waiting_time_violation = 0 ∧
       (Solution.new cfg truck_routes drone_routes).fixed_time_violation = 0)) ∧
    ((Solution.new cfg truck_routes drone_routes).feasible = true →
      Solution.cost powf pc penalty_exponent (Solution.new cfg truck_routes drone_routes) =
        (Solution.new cfg truck_routes drone_routes).working_time) := by
  constructor
  · simp [Solution.new]
  · intro hfeas
    have h : (Solution.new cfg truck_routes drone_routes).energy_violation = 0 ∧
        (Solution.new cfg truck_routes drone_routes).capacity_violation = 0 ∧
        (Solution.new cfg truck_routes drone_routes).waiting_time_violation = 0 ∧
        (Solution.new cfg truck_routes drone_routes).fixed_time_violation = 0 := by
      simpa [Solution.new] using hfeas
    rw [Solution.cost, h.1, h.2.1, h.2.2.1, h.2.2.2]
    simp [hpowf]

/-- Witness for feasible_iff_zero_violations_and_cost at cfgA with empty
route lists and powf instantiated by fun b e => b. -/
theorem feasible_iff_zero_violations_and_cost_witness :
    (∀ e : ℚ, (fun (b _ : ℚ) => b) 1 e = 1) ∧
    (Solution.new cfgA [] []).feasible = true ∧
    Solution.cost (fun (b _ : ℚ) => b) (2, 3, 4, 5) 7 (Solution.new cfgA [] []) =
      (Solution.new cfgA [] []).working_time :=
  ⟨fun _ => rfl, by with_unfolding_all rfl,
    (feasible_iff_zero_violations_and_cost cfgA [] [] (fun (b _ : ℚ) => b) (2, 3, 4, 5) 7
      (fun _ => rfl)).2 (by with_unfolding_all rfl)⟩

/-- Claim C9: one penalty update multiplies the coefficient by 1.5 when the
corresponding violation is strictly positive and divides it by 1.5
otherwise, clamps the outcome to the interval from 1 to 1000 (so the result
always lies in that interval, whatever the incoming coefficient, including
the initial value 1), and the per-iteration update applies this to all four
channels of the current solution. -/
theorem penalty_update_characterization :
    (∀ coeff violation : ℚ,
      (0 < violation →
        updateViolation coeff violation = min (max (coeff * (3 / 2)) 1) 1000) ∧
      (¬0 < violation →
        updateViolation coeff violation = min (max (coeff / (3 / 2)) 1) 1000) ∧
      1 ≤ updateViolation coeff violation ∧ updateViolation coeff violation ≤ 1000) ∧
    (∀ (pc : ℚ × ℚ × ℚ × ℚ) (s : Solution),
      updateViolationSolution pc s =
        (updateViolation pc.1 s.energy_violation,
         updateViolation pc.2.1 s.capacity_violation,
         updateViolation pc.2.2.1 s.waiting_time_violation,
         updateViolation pc.2.2.2 s.fixed_time_violation)) := by
  refine ⟨fun coeff violation => ⟨?_, ?_, ?_, ?_⟩, fun pc s => rfl⟩
  · intro h
    simp [updateViolation, h]
  · intro h
    simp [updateViolation, h]
  · unfold updateViolation
    have h1 : (1 : ℚ) ≤ max (if 0 < violation then coeff * (3 / 2) else coeff / (3 / 2)) 1 :=
      le_max_right _ _
    have h2 : (1 : ℚ) ≤ 1000 := by norm_num
    split_ifs with hv
    · exact le_min (le_max_right _ _) h2
    · exact le_min (le_max_right _ _) h2
  · unfold updateViolation
    split_ifs with hv
    · exact min_le_right _ _
    · exact min_le_right _ _

/-- Witness for penalty_update_characterization at coefficient 500 and
violation 1 (positive branch): the update yields 750 and stays within
bounds. -/
theorem penalty_update_characterization_witness :
    (0 : ℚ) < 1 ∧
    updateViolation 500 1 = min (max ((500 : ℚ) * (3 / 2)) 1) 1000 ∧
    1 ≤ updateViolation 500 1 ∧ updateViolation 500 1 ≤ 1000 :=
  ⟨by norm_num, (penalty_update_characterization.1 500 1).1 (by norm_num),
    (penalty_update_characterization.1 500 1).2.2.1,
    (penalty_update_characterization.1 500 1).2.2.2⟩

set_option linter.unnecessarySeqFocus false in
/-- Claim C10: the per-kind search returns None exactly when both the
intra-route and the inter-route enumerations came back with an empty tabu
attribute, and in that case the tabu list it was given is returned
untouched; the list is only modified on calls returning Some. -/
theorem search_none_iff_empty {S : Type} (cost : S → ℚ) (intra inter : S × List ℕ)
    (tabu_list : List (List ℕ)) (tabu_size : ℕ) :
    ((searchModel cost intra inter tabu_list tabu_size).1 = none ↔
      (intra.2 = [] ∧ inter.2 = [])) ∧
    ((searchModel cost intra inter tabu_list tabu_size).1 = none →
      (searchModel cost intra inter tabu_list tabu_size).2 = tabu_list) := by
  rcases intra with ⟨si, ti⟩
  rcases inter with ⟨sj, tj⟩
  by_cases hti : ti = [] <;> by_cases htj : tj = [] <;>
    simp [searchModel, searchChoose, hti, htj] <;> split_ifs <;> simp_all

/-- Witness for search_none_iff_empty: with both enumerations empty the
search returns None and hands back the tabu list unchanged. -/
theorem search_none_iff_empty_witness :
    (searchModel (fun _ : ℕ => (0 : ℚ)) (0, []) (0, []) [[1]] 3).1 = none ∧
    (searchModel (fun _ : ℕ => (0 : ℚ)) (0, []) (0, []) [[1]] 3).2 = [[1]] := by
  have h := search_none_iff_empty (fun _ : ℕ => (0 : ℚ)) (0, []) (0, []) [[1]] 3
  exact ⟨h.1.mpr ⟨rfl, rfl⟩, h.2 (h.1.mpr ⟨rfl, rfl⟩)⟩

theorem tabuInsert_not_mem (l : List (List ℕ)) (cap : ℕ) (x : List ℕ) (h : x ∉ l) :
    tabuInsert l cap x =
      if cap < l.length + 1 then (l ++ [x]).tail else l ++ [x] := by
  have hfind : l.findIdx? (· == x) = none := by
    rw [List.findIdx?_eq_none_iff]
    intro e he
    exact beq_eq_false_iff_ne.mpr fun hez => h (hez ▸ he)
  simp [tabuInsert, hfind]

theorem tabuInsert_first_occurrence (s t : List (List ℕ)) (cap : ℕ) (x : List ℕ)
    (hs : x ∉ s) :
    tabuInsert (s ++ x :: t) cap x = s ++ t ++ [x] := by
  have hfs : s.findIdx? (· == x) = none := by
    rw [List.findIdx?_eq_none_iff]
    intro e he
    exact beq_eq_false_iff_ne.mpr fun hez => hs (hez ▸ he)
  have hfind : (s ++ x :: t).findIdx? (· == x) = some s.length := by
    rw [List.findIdx?_append, hfs]
    simp [List.findIdx?_cons]
  rw [tabuInsert, hfind]
  simp only
  rw [List.take_left, List.drop_left]
  have : (x :: t).rotate 1 = t ++ [x] := by
    simp [List.rotate_cons_succ]
  rw [this, List.append_assoc]

theorem tabu_fold (cap : ℕ) (xs : List (List ℕ)) (h : xs.Nodup) :
    xs.foldl (fun l t => tabuInsert l cap t) [] = xs.drop (xs.length - cap) := by
  induction xs using List.reverseRecOn with
  | nil => simp
  | append_singleton ys x ih =>
    rw [List.nodup_append] at h
    obtain ⟨hys, -, hdisj⟩ := h
    have hx : x ∉ ys := fun hm => hdisj hm (List.mem_singleton_self x)
    rw [List.foldl_append, List.foldl_cons, List.foldl_nil, ih hys]
    have hx' : x ∉ ys.drop (ys.length - cap) := fun hm => hx (List.drop_subset _ _ hm)
    rw [tabuInsert_not_mem _ _ _ hx']
    have hlen : (ys.drop (ys.length - cap)).length = ys.length - (ys.length - cap) := by
      simp
    by_cases hcap : ys.length < cap
    · have h0 : ys.length - cap = 0 := by omega
      have h1 : ys.length + 1 - cap = 0 := by omega
      rw [h0, List.drop_zero] at *
      have : ¬cap < ys.length + 1 := by omega
      simp [this, h1, List.length_append]
    · push_neg at hcap
      have hevict : cap < (ys.drop (ys.length - cap)).length + 1 := by
        rw [hlen]; omega
      rw [if_pos (by simpa [List.length_append] using hevict)]
      by_cases hzero : cap = 0
      · subst hzero
        simp
      · have hne : ys.drop (ys.length - cap) ≠ [] := by
          intro hnil
          have := congrArg List.length hnil
          rw [hlen] at this
          simp at this
          omega
        rw [List.tail_append_of_ne_nil hne, List.tail_drop]
        have harith : ys.length - cap + 1 = ys.length + 1 - cap := by omega
        rw [harith]
        have hlen2 : (ys ++ [x]).length - cap = ys.length + 1 - cap := by
          simp
        rw [hlen2, List.drop_append_of_le_length (by omega)]

/-- Claim C6: starting from the empty tabu list, after more pairwise-distinct
insertions than the capacity the list holds exactly tabu_capacity entries,
namely the last tabu_capacity inserted ones in insertion order with the
oldest evicted first; and inserting an entry already present moves it to the
tail (the list becomes the list with that entry erased, followed by the
entry) without changing the length. -/
theorem tabu_list_fifo :
    (∀ (cap : ℕ) (xs : List (List ℕ)), xs.Nodup → cap < xs.length →
      (xs.foldl (fun l t => tabuInsert l cap t) []).length = cap ∧
      xs.foldl (fun l t => tabuInsert l cap t) [] = xs.drop (xs.length - cap)) ∧
    (∀ (l : List (List ℕ)) (cap : ℕ) (x : List ℕ), l.Nodup → x ∈ l →
      tabuInsert l cap x = l.erase x ++ [x] ∧ (tabuInsert l cap x).length = l.length) := by
  constructor
  · intro cap xs hnd hlen
    refine ⟨?_, tabu_fold cap xs hnd⟩
    rw [tabu_fold cap xs hnd]
    simp only [List.length_drop]
    omega
  · intro l cap x hnd hmem
    obtain ⟨s, t, rfl⟩ := List.append_of_mem hmem
    rw [List.nodup_append] at hnd
    have hs : x ∉ s := fun hxs => hnd.2.2 hxs (List.mem_cons_self x t)
    rw [tabuInsert_first_occurrence s t cap x hs]
    constructor
    · rw [List.erase_append_right _ hs, List.erase_cons_head]
    · simp

/-- Witness for tabu_list_fifo: two distinct insertions into a list of
capacity 1 keep only the later one, and re-inserting an entry present in a
list of capacity 5 rotates it to the tail at unchanged length. -/
theorem tabu_list_fifo_witness :
    ([[1], [2]] : List (List ℕ)).Nodup ∧ 1 < ([[1], [2]] : List (List ℕ)).length ∧
    (([[1], [2]] : List (List ℕ)).foldl (fun l t => tabuInsert l 1 t) []).length = 1 ∧
    ([[1], [2]] : List (List ℕ)).foldl (fun l t => tabuInsert l 1 t) [] =
      ([[1], [2]] : List (List ℕ)).drop (([[1], [2]] : List (List ℕ)).length - 1) ∧
    tabuInsert [[1], [2]] 5 [1] = ([[1], [2]] : List (List ℕ)).erase [1] ++ [[1]] ∧
    (tabuInsert [[1], [2]] 5 [1]).length = ([[1], [2]] : List (List ℕ)).length :=
  ⟨by decide, by decide,
   (tabu_list_fifo.1 1 [[1], [2]] (by decide) (by decide)).1,
   (tabu_list_fifo.1 1 [[1], [2]] (by decide) (by decide)).2,
   (tabu_list_fifo.2 [[1], [2]] 5 [1] (by decide) (by decide)).1,
   (tabu_list_fifo.2 [[1], [2]] 5 [1] (by decide) (by decide)).2⟩

/-- Claim C7: route construction is content-addressed.  Re-deriving a
sequence already constructed returns exactly the cached route object with its
memoized metrics and leaves the cache untouched, for both variants. -/
theorem route_new_content_addressed :
    (∀ (cfg : Config) (cache : RouteCache TruckRoute) (s1 s2 : List ℕ)
      (r : TruckRoute) (cache' : RouteCache TruckRoute), s1 = s2 →
      TruckRoute.new cfg cache s1 = some (r, cache') →
      TruckRoute.new cfg cache' s2 = some (r, cache')) ∧
    (∀ (cfg : Config) (cache : RouteCache DroneRoute) (s1 s2 : List ℕ)
      (r : DroneRoute) (cache' : RouteCache DroneRoute), s1 = s2 →
      DroneRoute.new cfg cache s1 = some (r, cache') →
      DroneRoute.new cfg cache' s2 = some (r, cache')) := by
  constructor
  · intro cfg cache s1 s2 r cache' heq hfirst
    subst heq
    rw [TruckRoute.new] at hfirst ⊢
    cases hl : cache.lookup s1 with
    | some value =>
      simp only [hl, Option.some.injEq, Prod.mk.injEq] at hfirst
      obtain ⟨rfl, rfl⟩ := hfirst
      simp [hl]
    | none =>
      simp only [hl] at hfirst
      cases hc : RouteData.construct cfg s1 with
      | none => rw [hc] at hfirst; exact absurd hfirst (by simp)
      | some data =>
        simp only [hc, Option.some.injEq, Prod.mk.injEq] at hfirst
        obtain ⟨rfl, rfl⟩ := hfirst
        simp [List.lookup]
  · intro cfg cache s1 s2 r cache' heq hfirst
    subst heq
    rw [DroneRoute.new] at hfirst ⊢
    cases hl : cache.lookup s1 with
    | some value =>
      simp only [hl, Option.some.injEq, Prod.mk.injEq] at hfirst
      obtain ⟨rfl, rfl⟩ := hfirst
      simp [hl]
    | none =>
      simp only [hl] at hfirst
      cases hc : RouteData.construct cfg s1 with
      | none => rw [hc] at hfirst; exact absurd hfirst (by simp)
      | some data =>
        simp only [hc, Option.some.injEq, Prod.mk.injEq] at hfirst
        obtain ⟨rfl, rfl⟩ := hfirst
        simp [List.lookup]

/-- Witness for route_new_content_addressed: constructing [0, 1, 0] on cfgA
from the empty cache and re-deriving it returns the identical cached route
and the unchanged cache, for both variants. -/
theorem route_new_content_addressed_witness :
    (TruckRoute.new cfgA [] [0, 1, 0] =
      some (mkTruckRoute cfgA [0, 1, 0], [([0, 1, 0], mkTruckRoute cfgA [0, 1, 0])]) ∧
     DroneRoute.new cfgA [] [0, 1, 0] =
      some (mkDroneRoute cfgA [0, 1, 0], [([0, 1, 0], mkDroneRoute cfgA [0, 1, 0])])) ∧
    TruckRoute.new cfgA [([0, 1, 0], mkTruckRoute cfgA [0, 1, 0])] [0, 1, 0] =
      some (mkTruckRoute cfgA [0, 1, 0], [([0, 1, 0], mkTruckRoute cfgA [0, 1, 0])]) ∧
    DroneRoute.new cfgA [([0, 1, 0], mkDroneRoute cfgA [0, 1, 0])] [0, 1, 0] =
      some (mkDroneRoute cfgA [0, 1, 0], [([0, 1, 0], mkDroneRoute cfgA [0, 1, 0])]) :=
  ⟨⟨by with_unfolding_all rfl, by with_unfolding_all rfl⟩,
   route_new_content_addressed.1 cfgA [] [0, 1, 0] [0, 1, 0] _ _ rfl
     (by with_unfolding_all rfl),
   route_new_content_addressed.2 cfgA [] [0, 1, 0] [0, 1, 0] _ _ rfl
     (by with_unfolding_all rfl)⟩

theorem internalUpdate_new_best (tl : List (List ℕ)) (costF : Solution → ℚ)
    (st : IterationState) (sol : Solution) (tabu : List ℕ)
    (h1 : costF sol < st.aspiration_cost) (h2 : sol.feasible = true) :
    internalUpdate tl costF st sol tabu =
      { aspiration_cost := costF sol
        min_cost := costF sol
        require_feasible := true
        result := (sol, tabu) } := by
  simp [internalUpdate, h1, h2]

theorem internalUpdate_rf_mono (tl : List (List ℕ)) (costF : Solution → ℚ)
    (st : IterationState) (sol : Solution) (tabu : List ℕ)
    (h : st.require_feasible = true) :
    (internalUpdate tl costF st sol tabu).require_feasible = true := by
  simp only [internalUpdate]
  split
  · exact h
  · split
    · simp [h]
    · exact h

theorem internalUpdate_pinv (tl : List (List ℕ)) (costF : Solution → ℚ)
    (st : IterationState) (sol : Solution) (tabu : List ℕ)
    (h : st.require_feasible = true → st.result.1.feasible = true) :
    (internalUpdate tl costF st sol tabu).require_feasible = true →
      (internalUpdate tl costF st sol tabu).result.1.feasible = true := by
  simp only [internalUpdate]
  split
  · exact h
  · rename_i hguard
    split
    · intro hrf
      simp only at hrf ⊢
      cases (Bool.or_eq_true _ _).mp hrf with
      | inl hst =>
        have hng : ¬(true && !sol.feasible) = true := hst ▸ hguard
        simpa using hng
      | inr hnb => exact ((Bool.and_eq_true _ _).mp hnb).2
    · exact h

theorem internalUpdate_no_trigger (tl : List (List ℕ)) (costF : Solution → ℚ)
    (st : IterationState) (sol : Solution) (tabu : List ℕ)
    (h : ¬(costF sol < st.aspiration_cost ∧ sol.feasible = true)) :
    (internalUpdate tl costF st sol tabu).aspiration_cost = st.aspiration_cost ∧
    (internalUpdate tl costF st sol tabu).require_feasible = st.require_feasible := by
  have hnb : (decide (costF sol < st.aspiration_cost) && sol.feasible) = false := by
    by_cases hc : costF sol < st.aspiration_cost
    · have hf : sol.feasible = false := by
        cases hfb : sol.feasible
        · rfl
        · exact absurd ⟨hc, hfb⟩ h
      simp [hf]
    · simp [hc]
  simp only [internalUpdate]
  split
  · exact ⟨rfl, rfl⟩
  · split
    · constructor <;> simp [hnb]
    · exact ⟨rfl, rfl⟩

theorem fold_internalUpdate_rf (tl : List (List ℕ)) (costF : Solution → ℚ) :
    ∀ (cands : List (Solution × List ℕ)) (st : IterationState),
      ((∃ c ∈ cands, costF c.1 < st.aspiration_cost ∧ c.1.feasible = true) ∨
        st.require_feasible = true) →
      (cands.foldl (fun st c => internalUpdate tl costF st c.1 c.2) st).require_feasible =
        true := by
  intro cands
  induction cands with
  | nil =>
    intro st h
    rcases h with ⟨c, hc, -⟩ | h
    · exact absurd hc (List.not_mem_nil c)
    · exact h
  | cons c cs ih =>
    intro st h
    rw [List.foldl_cons]
    by_cases htrig : costF c.1 < st.aspiration_cost ∧ c.1.feasible = true
    · refine ih _ (Or.inr ?_)
      rw [internalUpdate_new_best tl costF st c.1 c.2 htrig.1 htrig.2]
    · rcases h with ⟨w, hw, hwc⟩ | hrf
      · rcases List.mem_cons.mp hw with rfl | hwcs
        · exact absurd hwc htrig
        · refine ih _ (Or.inl ⟨w, hwcs, ?_, hwc.2⟩)
          rw [(internalUpdate_no_trigger tl costF st c.1 c.2 htrig).1]
          exact hwc.1
      · exact ih _ (Or.inr (internalUpdate_rf_mono tl costF st c.1 c.2 hrf))

theorem fold_internalUpdate_pinv (tl : List (List ℕ)) (costF : Solution → ℚ) :
    ∀ (cands : List (Solution × List ℕ)) (st : IterationState),
      (st.require_feasible = true → st.result.1.feasible = true) →
      ((cands.foldl (fun st c => internalUpdate tl costF st c.1 c.2) st).require_feasible =
          true →
        (cands.foldl (fun st c => internalUpdate tl costF st c.1 c.2) st).result.1.feasible =
          true) := by
  intro cands
  induction cands with
  | nil => intro st h; exact h
  | cons c cs ih =>
    intro st h
    rw [List.foldl_cons]
    exact ih _ (internalUpdate_pinv tl costF st c.1 c.2 h)

/-- Claim C4 (amended): a candidate that is feasible and strictly beats the
current aspiration cost is recorded as the running winner by
_internal_update even when its tabu attribute is in the tabu list; and over
any one enumeration of candidates processed by repeated _internal_update
calls starting from a state with require_feasible unset (as each of the
intra-route and inter-route enumerations of one search call is), if some
feasible candidate of that enumeration beats the initial aspiration cost
then the winner that enumeration finally records is feasible.  The winner
search actually returns is the cheaper of the two enumerations' winners and
need not be feasible; see the counterexample. -/
theorem aspiration_overrides_tabu :
    (∀ (tl : List (List ℕ)) (costF : Solution → ℚ) (st : IterationState)
      (sol : Solution) (tabu : List ℕ),
      costF sol < st.aspiration_cost → sol.feasible = true →
      (internalUpdate tl costF st sol tabu).result = (sol, tabu)) ∧
    (∀ (tl : List (List ℕ)) (costF : Solution → ℚ)
      (cands : List (Solution × List ℕ)) (st : IterationState),
      st.require_feasible = false →
      (∃ c ∈ cands, costF c.1 < st.aspiration_cost ∧ c.1.feasible = true) →
      (cands.foldl (fun st c => internalUpdate tl costF st c.1 c.2) st).result.1.feasible =
        true) := by
  constructor
  · intro tl costF st sol tabu h1 h2
    rw [internalUpdate_new_best tl costF st sol tabu h1 h2]
  · intro tl costF cands st hrf hex
    refine fold_internalUpdate_pinv tl costF cands st ?_ ?_
    · intro h
      rw [hrf] at h
      exact absurd h (by simp)
    · exact fold_internalUpdate_rf tl costF cands st (Or.inl hex)

/-- Witness for aspiration_overrides_tabu: the feasible cfgA solution with
working time 0 beats the aspiration cost 1 while its attribute [1] sits in
the tabu list [[1]]; _internal_update still records it, and the fold over the
single-candidate enumeration ends with a feasible winner. -/
theorem aspiration_overrides_tabu_witness :
    (Solution.new cfgA [] []).working_time < exState.aspiration_cost ∧
    (Solution.new cfgA [] []).feasible = true ∧
    exState.require_feasible = false ∧
    ([[1]] : List (List ℕ)).contains [1] = true ∧
    (internalUpdate [[1]] Solution.working_time exState (Solution.new cfgA [] [])
        [1]).result = (Solution.new cfgA [] [], [1]) ∧
    (([(Solution.new cfgA [] [], [1])] : List (Solution × List ℕ)).foldl
        (fun st c => internalUpdate [[1]] Solution.working_time st c.1 c.2)
        exState).result.1.feasible = true :=
  ⟨by with_unfolding_all decide, by with_unfolding_all rfl, rfl, by decide,
   aspiration_overrides_tabu.1 [[1]] Solution.working_time exState
     (Solution.new cfgA [] []) [1] (by with_unfolding_all decide)
     (by with_unfolding_all rfl),
   aspiration_overrides_tabu.2 [[1]] Solution.working_time
     [(Solution.new cfgA [] [], [1])] exState rfl
     ⟨(Solution.new cfgA [] [], [1]), List.mem_singleton_self _,
      by with_unfolding_all decide, by with_unfolding_all rfl⟩⟩

/-- Claim C4 counterexample: the aspiration guarantee does not carry over to
the winner search actually returns.  The inter-route enumeration holds a
feasible candidate beating the aspiration cost 10 (exFeasible, cost 4), so
inter's winner is feasible; but the intra-route enumeration separately
selects the infeasible exInfeasible of cost 2, and search, comparing the two
winners by cost alone, returns the infeasible one. -/
theorem search_winner_infeasible_despite_aspirant :
    exFeasible.feasible = true ∧
    exCost exFeasible < exAspState.aspiration_cost ∧
    (searchModel exCost
        (([(exInfeasible, [5])] : List (Solution × List ℕ)).foldl
          (fun st c => internalUpdate [] exCost st c.1 c.2) exAspState).result
        (([(exFeasible, [6])] : List (Solution × List ℕ)).foldl
          (fun st c => internalUpdate [] exCost st c.1 c.2) exAspState).result
        [] 5).1 = some exInfeasible ∧
    exInfeasible.feasible = false :=
  ⟨by with_unfolding_all rfl, by with_unfolding_all decide,
   by with_unfolding_all rfl, by with_unfolding_all rfl⟩

/-- Claim C3 counterexample: the first Move11 inter-route candidate of
[0, 2, 3, 0] against [0, 1, 0] carries the tabu attribute [2, 1] in generator
order.  Its sorted form [1, 2] is in the tabu list [[1, 2]], and the
candidate does not beat the aspiration cost, so a sorted-form lookup would
prohibit it; yet _internal_update records it as the winner because the
membership test uses the unsorted [2, 1]. -/
theorem inter_tabu_lookup_unsorted :
    (interRouteMove11 (fun _ => true) (fun _ => true) [0, 2, 3, 0] [0, 1, 0]).head? =
      some ([0, 1, 3, 0], [0, 2, 0], [2, 1]) ∧
    List.insertionSort (· ≤ ·) [2, 1] = [1, 2] ∧
    ([[1, 2]] : List (List ℕ)).contains (List.insertionSort (· ≤ ·) [2, 1]) = true ∧
    ([[1, 2]] : List (List ℕ)).contains [2, 1] = false ∧
    ¬((Solution.new cfgA [[mkTruckRoute cfgA [0, 1, 0]]] []).working_time <
        exStateLow.aspiration_cost) ∧
    (internalUpdate [[1, 2]] Solution.working_time exStateLow
        (Solution.new cfgA [[mkTruckRoute cfgA [0, 1, 0]]] []) [2, 1]).result =
      (Solution.new cfgA [[mkTruckRoute cfgA [0, 1, 0]]] [], [2, 1]) :=
  ⟨by with_unfolding_all rfl, by decide, by decide, by decide,
   by with_unfolding_all decide, by with_unfolding_all rfl⟩

theorem mem_tabuInsert (l : List (List ℕ)) (cap : ℕ) (x e : List ℕ)
    (h : e ∈ tabuInsert l cap x) : e ∈ l ∨ e = x := by
  cases hf : l.findIdx? (· == x) with
  | some i =>
    simp only [tabuInsert, hf] at h
    rcases List.mem_append.mp h with h1 | h2
    · exact Or.inl (List.take_subset _ _ h1)
    · exact Or.inl (List.drop_subset _ _ (List.mem_rotate.mp h2))
  | none =>
    simp only [tabuInsert, hf] at h
    split at h
    · have hm := List.tail_subset _ h
      rcases List.mem_append.mp hm with h1 | h2
      · exact Or.inl h1
      · exact Or.inr (List.mem_singleton.mp h2)
    · rcases List.mem_append.mp h with h1 | h2
      · exact Or.inl h1
      · exact Or.inr (List.mem_singleton.mp h2)

/-- Claim C3 (amended): every entry the per-kind search ever stores in a tabu
list is sorted (the winner's attribute is sorted before insertion, so
sortedness of the list is invariant), and the intra-route generator emits
every tabu attribute already sorted, so intra-route lookups test the sorted
form; inter-route candidate attributes, by contrast, are looked up in
generator order without sorting (see the counterexample). -/
theorem tabu_sorted_storage_and_intra :
    (∀ (S : Type) (cost : S → ℚ) (intra inter : S × List ℕ)
      (tabu_list : List (List ℕ)) (tabu_size : ℕ),
      (∀ e ∈ tabu_list, List.Sorted (· ≤ ·) e) →
      ∀ e ∈ (searchModel cost intra inter tabu_list tabu_size).2,
        List.Sorted (· ≤ ·) e) ∧
    (∀ (customers : List ℕ) (p : List ℕ × List ℕ), p ∈ intraRouteMove10 customers →
      List.Sorted (· ≤ ·) p.2) := by
  constructor
  · intro S cost intra inter tabu_list tabu_size hsorted e he
    simp only [searchModel] at he
    split at he
    · exact hsorted e he
    · rcases mem_tabuInsert _ _ _ _ he with h1 | rfl
      · exact hsorted e h1
      · exact List.sorted_insertionSort _ _
  · intro customers p hp
    simp only [intraRouteMove10] at hp
    obtain ⟨q, hq, rfl⟩ := List.mem_map.mp hp
    exact List.sorted_insertionSort _ _

/-- Witness for tabu_sorted_storage_and_intra: running the search with tabu
list [[1, 2]] stores the entry [2], and that entry is sorted. -/
theorem tabu_sorted_storage_and_intra_witness :
    List.Sorted (· ≤ ·) ([1, 2] : List ℕ) ∧
    List.Sorted (· ≤ ·) ([2] : List ℕ) ∧
    (searchModel (fun _ : ℕ => (0 : ℚ)) (0, [3, 1]) (0, [2]) [[1, 2]] 5).2 =
      [[1, 2], [2]] :=
  ⟨by decide,
   tabu_sorted_storage_and_intra.1 ℕ (fun _ => 0) (0, [3, 1]) (0, [2]) [[1, 2]] 5
     (by decide) [2] (by with_unfolding_all decide),
   by with_unfolding_all rfl⟩

/-- Claim C1 counterexample: on cfgB the solution whose single truck performs
the route [0, 1, 0] twice serves customer 1 twice, yet verify accepts it: the
marking vector only records presence, so a customer appearing two or more
times raises no panic. -/
theorem verify_accepts_duplicated_customer :
    ((Solution.new cfgB [[mkTruckRoute cfgB [0, 1, 0], mkTruckRoute cfgB [0, 1, 0]]]
        []).truck_routes.map fun routes =>
          (routes.map fun route => route.data.customers.count 1).sum).sum = 2 ∧
    Solution.verifyOk cfgB
      (Solution.new cfgB [[mkTruckRoute cfgB [0, 1, 0], mkTruckRoute cfgB [0, 1, 0]]] []) =
      true :=
  ⟨by with_unfolding_all rfl, by with_unfolding_all rfl⟩

/-- Claim C1 (amended): verify returns normally exactly when every truck has
at most one route whenever single_truck_route is set, every drone route
serves exactly one customer (sequence length 3) whenever single_drone_route
is set, every customer index on any route is at most customers_count (a
larger index panics the marking vector), every customer on a drone route is
dronable, and every customer of [1, customers_count] appears on at least one
route.  Zero-appearance is detected; appearing two or more times is not. -/
theorem verify_ok_iff (cfg : Config) (s : Solution) :
    Solution.verifyOk cfg s = true ↔
      ((cfg.single_truck_route = true → ∀ routes ∈ s.truck_routes, routes.length ≤ 1) ∧
       (∀ routes ∈ s.truck_routes, ∀ route ∈ routes, ∀ c ∈ route.data.customers,
          c ≤ cfg.customers_count) ∧
       (cfg.single_drone_route = true → ∀ routes ∈ s.drone_routes, ∀ route ∈ routes,
          route.data.customers.length = 3) ∧
       (∀ routes ∈ s.drone_routes, ∀ route ∈ routes, ∀ c ∈ route.data.customers,
          c ≤ cfg.customers_count ∧ cfg.dronable c = true) ∧
       (∀ c, 1 ≤ c → c ≤ cfg.customers_count →
          ((∃ routes ∈ s.truck_routes, ∃ route ∈ routes, c ∈ route.data.customers) ∨
           (∃ routes ∈ s.drone_routes, ∃ route ∈ routes, c ∈ route.data.customers)))) := by
  rw [Solution.verifyOk]
  simp only [Bool.and_eq_true, List.all_eq_true, Bool.or_eq_true, Bool.not_eq_true',
    decide_eq_true_eq, List.any_eq_true, List.mem_range]
  constructor
  · rintro ⟨⟨hA, hB⟩, hC⟩
    refine ⟨?_, ?_, ?_, ?_, ?_⟩
    · intro hst routes hr
      rcases (hA routes hr).1 with hf | hlen
      · rw [hst] at hf; cases hf
      · exact hlen
    · intro routes hr route hrt c hc
      exact (hA routes hr).2 route hrt c hc
    · intro hsd routes hr route hrt
      rcases (hB routes hr route hrt).1 with hf | h3
      · rw [hsd] at hf; cases hf
      · exact h3
    · intro routes hr route hrt c hc
      exact (hB routes hr route hrt).2 c hc
    · intro c h1 h2
      rcases hC c (by omega) with (h0 | htr) | hdr
      · omega
      · exact Or.inl htr
      · exact Or.inr hdr
  · rintro ⟨h1, h2, h3, h4, h5⟩
    refine ⟨⟨?_, ?_⟩, ?_⟩
    · intro routes hr
      refine ⟨?_, fun route hrt c hc => h2 routes hr route hrt c hc⟩
      cases hst : cfg.single_truck_route
      · exact Or.inl rfl
      · exact Or.inr (h1 hst routes hr)
    · intro routes hr route hrt
      refine ⟨?_, fun c hc => h4 routes hr route hrt c hc⟩
      cases hsd : cfg.single_drone_route
      · exact Or.inl rfl
      · exact Or.inr (h3 hsd routes hr route hrt)
    · intro c hc
      by_cases h0 : c = 0
      · exact Or.inl (Or.inl h0)
      · rcases h5 c (by omega) (by omega) with htr | hdr
        · exact Or.inl (Or.inr htr)
        · exact Or.inr hdr

end MTDV
